import Mathlib

/-!
Verification of the KooliForum post-list / vote-reconciliation slice.

The data model and operations below are shallow embeddings of:
* the `PostList` React component (`handleVote`, `handleSaveEdit`, `fetchPosts`
  color enrichment) — client side;
* the `/api/posts/[id]` route handlers `GET`, `PUT`, `DELETE` — server side;
* the vote-mutation endpoint `/api/posts/vote`, whose implementation is not
  part of this slice's sources; it is modelled from the spec (§4.1).

JavaScript / MongoDB specifics captured explicitly:
* `new ObjectId(id)` throws on a string that is not 24 hex characters,
  landing in the handlers' generic `catch` (status 500);
* `!title` is true for a missing field or the empty string;
* `Promise.all` rejects as soon as any member rejects, so a rejected color
  lookup aborts the whole enrichment `try` block.
-/

namespace Kooli

/-- A voter record: one user's vote on one post (spec §3). -/
structure Voter where
  userId : String
  vote : Int
deriving Repr, DecidableEq

/-- A stored post document (spec §3): identifier, title, content, author
reference, community reference, vote count, voter list, timestamps. -/
structure Post where
  id : String
  title : String
  content : String
  authorId : String
  authorName : String
  dramaSlug : String
  dramaTitle : String
  votes : Int
  voters : List Voter
  createdAt : Nat
  editedAt : Option Nat
deriving Repr, DecidableEq

/-- The recorded vote of `uid` in a voter list (the `voters?.find` of
`fetchPosts`). -/
def findVote (l : List Voter) (uid : String) : Option Int :=
  (l.find? (fun r => r.userId = uid)).map (·.vote)

/-- Sum of the vote values of a voter list. -/
def votersSum (l : List Voter) : Int :=
  (l.map (·.vote)).sum

/-- The core invariant (spec §3): the stored count equals the sum of the
voter records' values. -/
def voteInv (p : Post) : Prop :=
  p.votes = votersSum p.voters

/-- At most one record per user (spec §3 uniqueness invariant). -/
def uniqVoters (l : List Voter) : Prop :=
  (l.map (·.userId)).Nodup

/-- Replace the record of `uid` with value `v`, or append one if absent. -/
def upsert (uid : String) (v : Int) : List Voter → List Voter
  | [] => [⟨uid, v⟩]
  | r :: rest => if r.userId = uid then ⟨uid, v⟩ :: rest else r :: upsert uid v rest

/-- Modelled from the spec: the vote mutation endpoint `/api/posts/vote`,
whose route handler is not among this slice's source files.  Spec §4.1:
`null` removes the user's record and subtracts its prior value (0 if
absent); a value equal to the recorded vote is a no-op; any other value
replaces/inserts the record and adjusts the count by (new − old). -/
def voteMutation (uid : String) (v : Option Int) (p : Post) : Post :=
  match v with
  | none =>
      { p with
        voters := p.voters.filter (fun r => !(r.userId = uid)),
        votes := p.votes - (findVote p.voters uid).getD 0 }
  | some nv =>
      if findVote p.voters uid = some nv then p
      else
        { p with
          voters := upsert uid nv p.voters,
          votes := p.votes + nv - (findVote p.voters uid).getD 0 }

/-- All intermediate states produced by applying a sequence of vote requests
(user, vote) to a post, in order. -/
def applyVotes (p : Post) : List (String × Option Int) → List Post
  | [] => []
  | (u, v) :: rest =>
      voteMutation u v p :: applyVotes (voteMutation u v p) rest

/-- The component's per-post vote map, as `fetchPosts` derives it: the entry
for a post is the current user's voter record value, absent when the user
has no record. -/
def deriveUserVote (uid : String) (p : Post) : Option Int :=
  findVote p.voters uid

/-- The effective vote `handleVote` sends:
`userVotes[postId] === vote ? null : vote`. -/
def effectiveVote (current : Option Int) (requested : Int) : Option Int :=
  if current = some requested then none else some requested

/-- The body `handleVote` posts to `/api/posts/vote`. -/
structure VoteRequest where
  postId : String
  userId : String
  vote : Option Int
deriving Repr, DecidableEq

/-- Outcome of an awaited `fetch`: HTTP success, HTTP error status
(`!response.ok`), or network rejection. -/
inductive FetchOutcome
  | ok
  | httpError
  | networkError
deriving Repr, DecidableEq

/-- Observable effects of one run of `handleVote`: the request body sent,
whether `fetchPosts()` was reached, and whether the catch branch logged. -/
structure VoteEffects where
  request : VoteRequest
  refetched : Bool
  loggedError : Bool
deriving Repr, DecidableEq

/-- One run of `handleVote`: computes `newVote` from the vote map, posts it,
then — only when the response is ok — awaits `fetchPosts()`; a non-ok
response throws into the catch, which only logs. -/
def handleVote (current : Option Int) (uid pid : String) (requested : Int)
    (outcome : FetchOutcome) : VoteEffects :=
  let req : VoteRequest :=
    { postId := pid, userId := uid, vote := effectiveVote current requested }
  match outcome with
  | .ok => { request := req, refetched := true, loggedError := false }
  | .httpError => { request := req, refetched := false, loggedError := true }
  | .networkError => { request := req, refetched := false, loggedError := true }

/-- Whether a string is a valid MongoDB ObjectId in hex form:
`new ObjectId(id)` accepts a 24-character hex string and otherwise throws. -/
def isValidObjectId (s : String) : Bool :=
  s.length = 24 && s.toList.all (fun c =>
    c.isDigit || (('a' ≤ c && c ≤ 'f') || ('A' ≤ c && c ≤ 'F')))

/-- Result of a route handler: HTTP status plus the store after the call. -/
structure HandlerResult where
  status : Nat
  store : List Post
deriving Repr, DecidableEq

/-- The parsed body of a PUT request: `invalid` when `request.json()`
throws, otherwise the (possibly missing) `title` and `content` fields. -/
inductive PutBody
  | invalid
  | fields (title content : Option String)
deriving Repr, DecidableEq

/-- The JavaScript truth value of `!field` for a string-or-missing field:
true when the field is absent or the empty string. -/
def isBlank : Option String → Bool
  | none => true
  | some s => s = ""

/-- Handler for `GET /api/posts/[id]`: 400 for an empty id segment; `new ObjectId(id)`
throws on a malformed id into the catch (500); otherwise 404 when no
document matches, else 200 with the post.  The store is never written. -/
def getHandler (id : String) (store : List Post) :
    HandlerResult × Option Post :=
  if id = "" then (⟨400, store⟩, none)
  else if !isValidObjectId id then (⟨500, store⟩, none)
  else
    match store.find? (fun p => p.id = id) with
    | none => (⟨404, store⟩, none)
    | some p => (⟨200, store⟩, some p)

/-- Handler for `DELETE /api/posts/[id]`: 400 for an empty id segment; a malformed id
throws in `new ObjectId(id)` into the catch (500); `deletedCount === 0`
gives 404; else the document is removed and 200 returned. -/
def deleteHandler (id : String) (store : List Post) : HandlerResult :=
  if id = "" then ⟨400, store⟩
  else if !isValidObjectId id then ⟨500, store⟩
  else if store.all (fun p => !(p.id = id)) then ⟨404, store⟩
  else ⟨200, store.filter (fun p => !(p.id = id))⟩

/-- The `$set` document of the update: on the matching post it writes
exactly `title`, `content` and `editedAt`; any other post is untouched. -/
def applyEdit (id t c : String) (now : Nat) (p : Post) : Post :=
  if p.id = id then
    { p with title := t, content := c, editedAt := some now }
  else p

/-- Handler for `PUT /api/posts/[id]`: 400 for an empty id segment; a body that fails
to parse throws (500); `!title || !content` gives 400; only then is
`new ObjectId(id)` constructed (malformed id: 500); `matchedCount === 0`
gives 404; else `$set` writes title, content and `editedAt` and 200 is
returned. -/
def putHandler (id : String) (body : PutBody) (now : Nat)
    (store : List Post) : HandlerResult :=
  if id = "" then ⟨400, store⟩
  else
    match body with
    | .invalid => ⟨500, store⟩
    | .fields title content =>
        if isBlank title || isBlank content then ⟨400, store⟩
        else if !isValidObjectId id then ⟨500, store⟩
        else if store.all (fun p => !(p.id = id)) then ⟨404, store⟩
        else ⟨200, store.map (applyEdit id (title.getD "") (content.getD "") now)⟩

/-- The edit draft state of the list component
(`editingPost`, `editTitle`, `editContent`). -/
structure DraftState where
  editingPost : Option String
  editTitle : String
  editContent : String
deriving Repr, DecidableEq

/-- Observable outcome of one `handleSaveEdit` run: the draft state
afterwards, whether `fetchPosts()` was awaited, whether `alert` fired. -/
structure SaveEditResult where
  draft : DraftState
  refetched : Bool
  alerted : Bool
deriving Repr, DecidableEq

/-- One run of `handleSaveEdit postId`: PUTs the draft's title/content; on
an ok response clears the draft and re-fetches; a non-ok response throws
into the catch, which logs and alerts, leaving the draft untouched. -/
def handleSaveEdit (st : DraftState) (postId : String) (now : Nat)
    (store : List Post) : SaveEditResult × List Post :=
  let res := putHandler postId
    (.fields (some st.editTitle) (some st.editContent)) now store
  if res.status = 200 then
    (⟨⟨none, "", ""⟩, true, false⟩, res.store)
  else
    (⟨st, false, true⟩, res.store)

/-- Result of one membership color lookup
(`fetch .../membership` + `res.json()`): `error` when the promise rejects
(network failure or unparseable body), otherwise the parsed body's `color`
field, absent when the body has none. -/
def ColorLookup := String → Except Unit (Option String)

/-- The `Promise.all` over the distinct slugs in `fetchPosts` ('all' mode):
falsy slugs are skipped (`if (slug)`); each remaining slug's lookup result
is written into `colors`; one rejection rejects the whole `Promise.all`. -/
def collectColors (lookup : ColorLookup) :
    List String → Except Unit (List (String × Option String))
  | [] => .ok []
  | s :: rest =>
      if s = "" then collectColors lookup rest
      else
        match lookup s with
        | .error e => .error e
        | .ok c =>
            match collectColors lookup rest with
            | .error e => .error e
            | .ok cs => .ok ((s, c) :: cs)

/-- The `dramaColors` state after the color-enrichment phase of
`fetchPosts` in 'all' mode: a rejected `Promise.all` throws into the
surrounding catch before `setDramaColors(colors)` runs, so the previous
map is kept; otherwise the freshly collected map replaces it. -/
def dramaColorsAfter (lookup : ColorLookup) (slugs : List String)
    (prev : List (String × Option String)) : List (String × Option String) :=
  match collectColors lookup slugs with
  | .error _ => prev
  | .ok cs => cs

/-! Concrete fixtures used to instantiate the theorems. -/

/-- A well-formed 24-hex-character ObjectId string. -/
def validId : String := "507f1f77bcf86cd799439011"

/-- A sample stored post. -/
def post1 : Post :=
  { id := validId, title := "hello", content := "world",
    authorId := "u1", authorName := "alice",
    dramaSlug := "d1", dramaTitle := "Drama One",
    votes := 0, voters := [], createdAt := 3, editedAt := none }

/-- A membership lookup in which exactly community `b` rejects. -/
def lookupEx : ColorLookup := fun s =>
  if s = "b" then .error () else .ok (some (String.append "color-" s))

/-- A membership lookup that always succeeds. -/
def lookupOk : ColorLookup := fun s =>
  .ok (some (String.append "c-" s))

/-! ### Voter-list lemmas -/

theorem findVote_cons_self {r : Voter} {rest : List Voter} {uid : String}
    (h : r.userId = uid) : findVote (r :: rest) uid = some r.vote := by
  simp [findVote, List.find?_cons_of_pos, h]

theorem findVote_cons_ne {r : Voter} {rest : List Voter} {uid : String}
    (h : ¬ r.userId = uid) : findVote (r :: rest) uid = findVote rest uid := by
  simp [findVote, List.find?_cons_of_neg, h]

theorem findVote_eq_none_of_not_mem :
    ∀ (l : List Voter) (uid : String), uid ∉ l.map (·.userId) →
      findVote l uid = none
  | [], _, _ => rfl
  | r :: rest, uid, h => by
      have hr : ¬ r.userId = uid := fun he => h (by simp [← he])
      rw [findVote_cons_ne hr]
      exact findVote_eq_none_of_not_mem rest uid (fun hm => h (by simp [hm]))

theorem filter_eq_self_of_findVote_none :
    ∀ (l : List Voter) (uid : String), findVote l uid = none →
      l.filter (fun r => !(r.userId = uid)) = l
  | [], _, _ => rfl
  | r :: rest, uid, h => by
      by_cases hr : r.userId = uid
      · rw [findVote_cons_self hr] at h
        exact absurd h (by simp)
      · rw [findVote_cons_ne hr] at h
        simp [hr, filter_eq_self_of_findVote_none rest uid h]

theorem votersSum_filter :
    ∀ (l : List Voter) (uid : String), uniqVoters l →
      votersSum (l.filter (fun r => !(r.userId = uid)))
        = votersSum l - (findVote l uid).getD 0
  | [], _, _ => by simp [votersSum, findVote]
  | r :: rest, uid, hU => by
      have hU' : uniqVoters rest := (List.nodup_cons.mp hU).2
      by_cases hr : r.userId = uid
      · have hmem : r.userId ∉ rest.map (·.userId) := (List.nodup_cons.mp hU).1
        have hnone : findVote rest uid = none :=
          findVote_eq_none_of_not_mem rest uid (hr ▸ hmem)
        rw [findVote_cons_self hr]
        have hkeep : (r :: rest).filter (fun r => !(r.userId = uid))
            = rest.filter (fun r => !(r.userId = uid)) := by
          simp [hr]
        rw [hkeep, filter_eq_self_of_findVote_none rest uid hnone]
        simp [votersSum]
      · rw [findVote_cons_ne hr]
        have hkeep : (r :: rest).filter (fun r => !(r.userId = uid))
            = r :: rest.filter (fun r => !(r.userId = uid)) := by
          simp [hr]
        rw [hkeep]
        have ih := votersSum_filter rest uid hU'
        simp only [votersSum, List.map_cons, List.sum_cons] at *
        omega

theorem votersSum_upsert :
    ∀ (l : List Voter) (uid : String) (v : Int),
      votersSum (upsert uid v l) = votersSum l + v - (findVote l uid).getD 0
  | [], uid, v => by simp [upsert, votersSum, findVote]
  | r :: rest, uid, v => by
      by_cases hr : r.userId = uid
      · rw [findVote_cons_self hr]
        simp only [upsert, hr, if_true, votersSum, List.map_cons,
          List.sum_cons, Option.getD_some]
        omega
      · rw [findVote_cons_ne hr]
        have ih := votersSum_upsert rest uid v
        simp only [upsert, hr, if_false, votersSum, List.map_cons,
          List.sum_cons] at *
        omega

theorem findVote_upsert_self :
    ∀ (l : List Voter) (uid : String) (v : Int),
      findVote (upsert uid v l) uid = some v
  | [], uid, v => by simp [upsert, findVote]
  | r :: rest, uid, v => by
      by_cases hr : r.userId = uid
      · simp [upsert, hr, findVote]
      · simp only [upsert, hr, if_false]
        rw [findVote_cons_ne hr]
        exact findVote_upsert_self rest uid v

theorem filter_upsert_of_findVote_none :
    ∀ (l : List Voter) (uid : String) (v : Int), findVote l uid = none →
      (upsert uid v l).filter (fun r => !(r.userId = uid)) = l
  | [], uid, v, _ => by simp [upsert]
  | r :: rest, uid, v, h => by
      by_cases hr : r.userId = uid
      · rw [findVote_cons_self hr] at h
        exact absurd h (by simp)
      · rw [findVote_cons_ne hr] at h
        simp only [upsert, hr, if_false]
        simp [hr, filter_upsert_of_findVote_none rest uid v h]

theorem uniq_filter {l : List Voter} (p : Voter → Bool)
    (hU : uniqVoters l) : uniqVoters (l.filter p) :=
  hU.sublist ((l.filter_sublist).map (·.userId))

theorem mem_keys_upsert :
    ∀ (l : List Voter) (uid a : String) (v : Int),
      a ∈ (upsert uid v l).map (·.userId) →
        a ∈ l.map (·.userId) ∨ a = uid
  | [], uid, a, v, h => by
      simp only [upsert, List.map_cons, List.map_nil] at h
      right
      simpa using h
  | r :: rest, uid, a, v, h => by
      by_cases hr : r.userId = uid
      · simp only [upsert, hr, if_true, List.map_cons] at h
        rcases List.mem_cons.mp h with h1 | h2
        · right; exact h1
        · left; simp [h2]
      · simp only [upsert, hr, if_false, List.map_cons] at h
        rcases List.mem_cons.mp h with h1 | h2
        · left; simp [h1]
        · rcases mem_keys_upsert rest uid a v h2 with h3 | h3
          · left; simp [h3]
          · right; exact h3

theorem uniq_upsert :
    ∀ (l : List Voter) (uid : String) (v : Int), uniqVoters l →
      uniqVoters (upsert uid v l)
  | [], uid, v, _ => by simp [upsert, uniqVoters]
  | r :: rest, uid, v, hU => by
      have hmem : r.userId ∉ rest.map (·.userId) := (List.nodup_cons.mp hU).1
      have hU' : uniqVoters rest := (List.nodup_cons.mp hU).2
      by_cases hr : r.userId = uid
      · simp only [upsert, hr, if_true, uniqVoters, List.map_cons]
        exact List.nodup_cons.mpr ⟨hr ▸ hmem, hU'⟩
      · simp only [upsert, hr, if_false, uniqVoters, List.map_cons]
        refine List.nodup_cons.mpr ⟨?_, uniq_upsert rest uid v hU'⟩
        intro hin
        rcases mem_keys_upsert rest uid r.userId v hin with h1 | h1
        · exact hmem h1
        · exact hr h1

/-- One vote mutation preserves both the count invariant and the
uniqueness of voter records. -/
theorem voteMutation_preserves (uid : String) (v : Option Int) (p : Post)
    (hInv : voteInv p) (hU : uniqVoters p.voters) :
    voteInv (voteMutation uid v p)
      ∧ uniqVoters (voteMutation uid v p).voters := by
  cases v with
  | none =>
      constructor
      · show p.votes - (findVote p.voters uid).getD 0
          = votersSum (p.voters.filter (fun r => !(r.userId = uid)))
        rw [votersSum_filter p.voters uid hU, ← hInv]
      · exact uniq_filter _ hU
  | some nv =>
      by_cases hsame : findVote p.voters uid = some nv
      · simp only [voteMutation, hsame, if_true]
        exact ⟨hInv, hU⟩
      · simp only [voteMutation, hsame, if_false]
        constructor
        · show p.votes + nv - (findVote p.voters uid).getD 0
            = votersSum (upsert uid nv p.voters)
          rw [votersSum_upsert p.voters uid nv, ← hInv]
        · exact uniq_upsert p.voters uid nv hU

/-- Uniqueness of voter records is preserved along any request sequence. -/
theorem uniq_applyVotes (reqs : List (String × Option Int)) (p : Post)
    (hInv : voteInv p) (hU : uniqVoters p.voters) :
    ∀ q ∈ applyVotes p reqs, uniqVoters q.voters := by
  induction reqs generalizing p with
  | nil => intro q hq; simp [applyVotes] at hq
  | cons rv rest ih =>
      intro q hq
      obtain ⟨u, v⟩ := rv
      simp only [applyVotes, List.mem_cons] at hq
      have hp1 := voteMutation_preserves u v p hInv hU
      rcases hq with rfl | hq
      · exact hp1.2
      · exact ih (voteMutation u v p) hp1.1 hp1.2 q hq

/-- C1: starting from a post satisfying the count and uniqueness
invariants, every state reached during any sequence of vote mutations —
i.e. every observable state, each mutation being atomic in this model —
has its vote count equal to the sum of the recorded voter values. -/
theorem vote_count_invariant_all_states (p : Post)
    (reqs : List (String × Option Int))
    (hInv : voteInv p) (hU : uniqVoters p.voters) :
    ∀ q ∈ applyVotes p reqs, voteInv q := by
  induction reqs generalizing p with
  | nil => intro q hq; simp [applyVotes] at hq
  | cons rv rest ih =>
      intro q hq
      obtain ⟨u, v⟩ := rv
      simp only [applyVotes, List.mem_cons] at hq
      have hp1 := voteMutation_preserves u v p hInv hU
      rcases hq with rfl | hq
      · exact hp1.1
      · exact ih (voteMutation u v p) hp1.1 hp1.2 q hq

/-- Witness for C1 at a concrete post and request sequence. -/
theorem vote_count_invariant_all_states_witness :
    voteInv (voteMutation "u1" (some 1) post1) := by
  have H := vote_count_invariant_all_states post1 [("u1", some 1)]
    (by simp [voteInv, votersSum, post1]) (by simp [uniqVoters, post1])
  exact H (voteMutation "u1" (some 1) post1) (by simp [applyVotes])

/-- C5: starting from no recorded vote, toggling the same direction twice
(first sending the direction, then — the direction now being the recorded
vote — sending null) restores the post exactly: count and voter list are
back to their pre-vote values. -/
theorem double_toggle_restores (p : Post) (uid : String) (d : Int)
    (h : findVote p.voters uid = none) :
    voteMutation uid
      (effectiveVote
        (deriveUserVote uid
          (voteMutation uid (effectiveVote (deriveUserVote uid p) d) p)) d)
      (voteMutation uid (effectiveVote (deriveUserVote uid p) d) p) = p := by
  have h1 : effectiveVote (deriveUserVote uid p) d = some d := by
    simp [effectiveVote, deriveUserVote, h]
  rw [h1]
  have h2 : voteMutation uid (some d) p
      = { p with voters := upsert uid d p.voters, votes := p.votes + d } := by
    simp [voteMutation, h]
  rw [h2]
  have h3 : deriveUserVote uid
      { p with voters := upsert uid d p.voters, votes := p.votes + d }
      = some d :=
    findVote_upsert_self p.voters uid d
  rw [h3]
  have h4 : effectiveVote (some d) d = none := by simp [effectiveVote]
  rw [h4]
  show ({ p with
    voters := (upsert uid d p.voters).filter (fun r => !(r.userId = uid)),
    votes := p.votes + d
      - (findVote (upsert uid d p.voters) uid).getD 0 } : Post) = p
  rw [findVote_upsert_self p.voters uid d,
    filter_upsert_of_findVote_none p.voters uid d h]
  simp

/-- Witness for C5 at a concrete post, user and direction. -/
theorem double_toggle_restores_witness :
    voteMutation "u1"
      (effectiveVote
        (deriveUserVote "u1"
          (voteMutation "u1" (effectiveVote (deriveUserVote "u1" post1) 1)
            post1)) 1)
      (voteMutation "u1" (effectiveVote (deriveUserVote "u1" post1) 1) post1)
      = post1 :=
  double_toggle_restores post1 "u1" 1 (by decide)

/-- C2: the vote the component sends is null exactly when the requested
direction equals the recorded vote, and the requested direction itself in
every other case (no recorded vote, or the opposite vote), addressed to
the given post and user. -/
theorem handleVote_toggle_policy (current : Option Int) (uid pid : String)
    (d : Int) (outcome : FetchOutcome) :
    (current = some d →
      (handleVote current uid pid d outcome).request.vote = none)
    ∧ (current ≠ some d →
      (handleVote current uid pid d outcome).request.vote = some d)
    ∧ (handleVote current uid pid d outcome).request.postId = pid
    ∧ (handleVote current uid pid d outcome).request.userId = uid := by
  refine ⟨fun hc => ?_, fun hc => ?_, ?_, ?_⟩
  · cases outcome <;> simp [handleVote, effectiveVote, hc]
  · cases outcome <;> simp [handleVote, effectiveVote, hc]
  · cases outcome <;> rfl
  · cases outcome <;> rfl

/-- Witness for C2: both branches of the toggle policy at concrete
inputs. -/
theorem handleVote_toggle_policy_witness :
    (handleVote (some 1) "u1" "p1" 1 FetchOutcome.ok).request.vote = none
    ∧ (handleVote none "u1" "p1" 1 FetchOutcome.ok).request.vote = some 1 :=
  ⟨(handleVote_toggle_policy (some 1) "u1" "p1" 1 FetchOutcome.ok).1 rfl,
   (handleVote_toggle_policy none "u1" "p1" 1 FetchOutcome.ok).2.1
     (by decide)⟩

/-- C3 counterexample: on a completed-but-failed vote request the
component does not re-fetch — `fetchPosts()` is never reached, the catch
only logs — refuting the claim that a re-fetch follows success and
failure alike. -/
theorem handleVote_refetch_counterexample :
    (handleVote none "u1" "p1" 1 FetchOutcome.httpError).refetched = false
    ∧ (handleVote none "u1" "p1" 1 FetchOutcome.networkError).refetched
        = false := by
  constructor <;> rfl

/-- C3 amended: the component re-fetches the list exactly when the vote
request succeeds; on an error response or network failure it only logs
and does not re-fetch. -/
theorem handleVote_refetch_iff_ok (current : Option Int) (uid pid : String)
    (d : Int) (outcome : FetchOutcome) :
    (handleVote current uid pid d outcome).refetched = true
      ↔ outcome = FetchOutcome.ok := by
  cases outcome <;> simp [handleVote]

/-! ### Color-enrichment lemmas (C4) -/

theorem collectColors_error_of_exists (lookup : ColorLookup) :
    ∀ (slugs : List String),
      (∃ s ∈ slugs, s ≠ "" ∧ lookup s = .error ()) →
      collectColors lookup slugs = .error ()
  | [], h => by simp at h
  | s' :: rest, h => by
      by_cases hs' : s' = ""
      · simp only [collectColors, hs', if_true]
        apply collectColors_error_of_exists lookup rest
        obtain ⟨s, hs, hne, herr⟩ := h
        rcases List.mem_cons.mp hs with rfl | hmem
        · exact absurd hs' hne
        · exact ⟨s, hmem, hne, herr⟩
      · simp only [collectColors, hs', if_false]
        cases hlk : lookup s' with
        | error e => rfl
        | ok c' =>
            obtain ⟨s, hs, hne, herr⟩ := h
            rcases List.mem_cons.mp hs with rfl | hmem
            · rw [hlk] at herr; exact absurd herr (by simp)
            · rw [collectColors_error_of_exists lookup rest ⟨s, hmem, hne, herr⟩]

theorem collectColors_exists_error (lookup : ColorLookup) :
    ∀ (slugs : List String), collectColors lookup slugs = .error () →
      ∃ s ∈ slugs, s ≠ "" ∧ lookup s = .error ()
  | [], h => by simp [collectColors] at h
  | s' :: rest, h => by
      by_cases hs' : s' = ""
      · simp only [collectColors, hs', if_true] at h
        obtain ⟨s, hs, hne, herr⟩ := collectColors_exists_error lookup rest h
        exact ⟨s, List.mem_cons_of_mem s' hs, hne, herr⟩
      · simp only [collectColors, hs', if_false] at h
        cases hlk : lookup s' with
        | error e =>
            exact ⟨s', List.mem_cons_self s' rest, hs', by rw [hlk]⟩
        | ok c' =>
            rw [hlk] at h
            cases hrest : collectColors lookup rest with
            | error e =>
                obtain ⟨s, hs, hne, herr⟩ :=
                  collectColors_exists_error lookup rest (by rw [hrest])
                exact ⟨s, List.mem_cons_of_mem s' hs, hne, herr⟩
            | ok cs' => rw [hrest] at h; simp at h

theorem mem_collectColors (lookup : ColorLookup) :
    ∀ (slugs : List String) (cs : List (String × Option String)),
      collectColors lookup slugs = .ok cs →
      ∀ s ∈ slugs, ∀ c, s ≠ "" → lookup s = .ok c → (s, c) ∈ cs
  | [], cs, _, s, hs, c, _, _ => by simp at hs
  | s' :: rest, cs, h, s, hs, c, hne, hlk => by
      by_cases hs' : s' = ""
      · simp only [collectColors, hs', if_true] at h
        rcases List.mem_cons.mp hs with rfl | hmem
        · exact absurd hs' hne
        · exact mem_collectColors lookup rest cs h s hmem c hne hlk
      · simp only [collectColors, hs', if_false] at h
        cases hlk' : lookup s' with
        | error e => rw [hlk'] at h; simp at h
        | ok c' =>
            rw [hlk'] at h
            cases hrest : collectColors lookup rest with
            | error e => rw [hrest] at h; simp at h
            | ok cs' =>
                rw [hrest] at h
                have hcs : cs = (s', c') :: cs' := by
                  simpa using h.symm
                subst hcs
                rcases List.mem_cons.mp hs with rfl | hmem
                · rw [hlk'] at hlk
                  have : c' = c := by simpa using hlk
                  subst this
                  exact List.mem_cons_self _ _
                · exact List.mem_cons_of_mem _
                    (mem_collectColors lookup rest cs' hrest s hmem c hne hlk)

/-- C4 counterexample: three communities, the lookup for `b` rejects while
the one for `a` succeeds — yet no color at all is applied (the previous,
empty map is kept): community `a` does not obtain its color. -/
theorem color_failure_counterexample :
    lookupEx "a" = .ok (some "color-a")
    ∧ lookupEx "b" = .error ()
    ∧ dramaColorsAfter lookupEx ["a", "b", "c"] [] = []
    ∧ ("a", some "color-a") ∉ dramaColorsAfter lookupEx ["a", "b", "c"] [] := by
  refine ⟨rfl, rfl, rfl, ?_⟩
  intro hmem
  rw [show dramaColorsAfter lookupEx ["a", "b", "c"] []
      = ([] : List (String × Option String)) from rfl] at hmem
  simp at hmem

/-- C4 amended: a color lookup that rejects aborts the whole enrichment —
the previously held color map is kept, so no community from this fetch
obtains a color; only when every lookup resolves (possibly with a body
lacking a color) does each non-empty community obtain its looked-up
color. -/
theorem color_enrichment_amended (lookup : ColorLookup)
    (slugs : List String) (prev : List (String × Option String)) :
    ((∃ s ∈ slugs, s ≠ "" ∧ lookup s = .error ()) →
      dramaColorsAfter lookup slugs prev = prev)
    ∧ ((∀ s ∈ slugs, s ≠ "" → lookup s ≠ .error ()) →
      ∀ s ∈ slugs, ∀ c, s ≠ "" → lookup s = .ok c →
        (s, c) ∈ dramaColorsAfter lookup slugs prev) := by
  constructor
  · intro hex
    simp [dramaColorsAfter, collectColors_error_of_exists lookup slugs hex]
  · intro hall s hs c hne hlk
    cases hcc : collectColors lookup slugs with
    | error e =>
        obtain ⟨s0, hs0, hne0, herr0⟩ :=
          collectColors_exists_error lookup slugs (by rw [hcc])
        exact absurd herr0 (hall s0 hs0 hne0)
    | ok cs =>
        simpa [dramaColorsAfter, hcc] using
          mem_collectColors lookup slugs cs hcc s hs c hne hlk

/-- Witness for C4 amended: the aborting branch with `lookupEx`, and the
all-resolve branch with `lookupOk`. -/
theorem color_enrichment_amended_witness :
    dramaColorsAfter lookupEx ["a", "b", "c"] [("z", some "old")]
        = [("z", some "old")]
    ∧ ("a", some "c-a") ∈ dramaColorsAfter lookupOk ["a", "b"] [] := by
  constructor
  · exact (color_enrichment_amended lookupEx ["a", "b", "c"]
      [("z", some "old")]).1 ⟨"b", by simp, by simp, rfl⟩
  · exact (color_enrichment_amended lookupOk ["a", "b"] []).2
      (fun s _ _ => by simp [lookupOk]) "a" (by simp) (some "c-a")
      (by simp) rfl

/-! ### Route-handler theorems (C6, C8, C9, C10) -/

/-- C6: a PUT whose parsed body has an empty or missing title, or an empty
or missing content, is answered 400 and leaves the store untouched. -/
theorem put_blank_rejected (id : String) (t c : Option String) (now : Nat)
    (store : List Post) (h : isBlank t = true ∨ isBlank c = true) :
    putHandler id (.fields t c) now store = ⟨400, store⟩ := by
  by_cases hid : id = ""
  · simp [putHandler, hid]
  · have hb : (isBlank t || isBlank c) = true := by
      rcases h with h | h <;> simp [h]
    simp [putHandler, hid, hb]

/-- Witness for C6 at a concrete blank-title request. -/
theorem put_blank_rejected_witness :
    putHandler validId (.fields (some "") (some "body")) 0 [post1]
      = ⟨400, [post1]⟩ :=
  put_blank_rejected validId (some "") (some "body") 0 [post1]
    (Or.inl (by decide))

/-- C8 counterexample: a malformed id (here `zz`) matches no stored post —
the store is empty — yet DELETE answers 500, not 404, because
`new ObjectId` throws before the store is consulted. -/
theorem delete_malformed_counterexample :
    (deleteHandler "zz" []).status = 500
    ∧ (deleteHandler "zz" []).status ≠ 404 := by
  constructor <;> decide

/-- C8 amended: for a well-formed ObjectId matching no stored post, DELETE
answers 404 with the store unchanged; for a malformed non-empty id it
answers 500, also with the store unchanged — in both cases the handler
returns a normal error response rather than crashing. -/
theorem delete_missing_404 (id : String) (store : List Post) :
    (isValidObjectId id = true → (∀ p ∈ store, ¬ p.id = id) →
      deleteHandler id store = ⟨404, store⟩)
    ∧ (id ≠ "" → isValidObjectId id = false →
      deleteHandler id store = ⟨500, store⟩) := by
  constructor
  · intro hv hmem
    have hid : ¬ id = "" := by
      intro he
      rw [he] at hv
      simp [isValidObjectId] at hv
    have hall : store.all (fun p => !(p.id = id)) = true := by
      rw [List.all_eq_true]
      intro p hp
      simpa using hmem p hp
    simp [deleteHandler, hid, hv, hall]
  · intro hid hv
    simp [deleteHandler, hid, hv]

/-- Witness for C8 amended: both branches at concrete inputs. -/
theorem delete_missing_404_witness :
    deleteHandler validId [] = ⟨404, []⟩
    ∧ deleteHandler "zz" [post1] = ⟨500, [post1]⟩ :=
  ⟨(delete_missing_404 validId []).1 (by decide) (by simp),
   (delete_missing_404 "zz" [post1]).2 (by decide) (by decide)⟩

theorem putHandler_200_store (id t c : String) (now : Nat)
    (store : List Post)
    (h : (putHandler id (.fields (some t) (some c)) now store).status = 200) :
    (putHandler id (.fields (some t) (some c)) now store).store
      = store.map (applyEdit id t c now) := by
  by_cases h1 : id = ""
  · simp [putHandler, h1] at h
  · by_cases h2 : (isBlank (some t) || isBlank (some c)) = true
    · simp [putHandler, h1, h2] at h
    · by_cases h3 : isValidObjectId id = true
      · by_cases h4 : store.all (fun p => !(p.id = id)) = true
        · simp [putHandler, h1, h2, h3, h4] at h
        · simp [putHandler, h1, h2, h3, h4]
      · simp [putHandler, h1, h2, h3] at h

/-- C9: a successful PUT rewrites exactly the matching post's title,
content and editedAt; its every other field, and every other post, is
unchanged, and the store keeps its length. -/
theorem put_frame_only_edit_fields (id t c : String) (now : Nat)
    (store : List Post)
    (h : (putHandler id (.fields (some t) (some c)) now store).status = 200) :
    ((putHandler id (.fields (some t) (some c)) now store).store).length
        = store.length
    ∧ ∀ (i : Nat) (p : Post), store[i]? = some p →
        ∃ q, ((putHandler id (.fields (some t) (some c)) now
              store).store)[i]? = some q
          ∧ q.id = p.id ∧ q.votes = p.votes ∧ q.voters = p.voters
          ∧ q.authorId = p.authorId ∧ q.authorName = p.authorName
          ∧ q.dramaSlug = p.dramaSlug ∧ q.dramaTitle = p.dramaTitle
          ∧ q.createdAt = p.createdAt
          ∧ (p.id = id → q.title = t ∧ q.content = c ∧ q.editedAt = some now)
          ∧ (¬ p.id = id → q = p) := by
  rw [putHandler_200_store id t c now store h]
  constructor
  · exact List.length_map _ _
  · intro i p hp
    refine ⟨applyEdit id t c now p, ?_, ?_⟩
    · rw [List.getElem?_map, hp]
      rfl
    · by_cases hid : p.id = id <;> simp [applyEdit, hid]

/-- Witness for C9: a successful concrete PUT keeps the store's length. -/
theorem put_frame_only_edit_fields_witness :
    ((putHandler validId (PutBody.fields (some "nt") (some "nc")) 7
        [post1]).store).length = 1 := by
  have H := put_frame_only_edit_fields validId "nt" "nc" 7 [post1] (by decide)
  simpa using H.1

/-- C10 counterexample: on a malformed id, PUT validates the body first,
so an empty title yields 400 — not the claimed 500. -/
theorem malformed_id_put_counterexample :
    isValidObjectId "zz" = false
    ∧ ¬ "zz" = ""
    ∧ (putHandler "zz" (PutBody.fields (some "") (some "body")) 0 []).status
        = 400 := by
  refine ⟨by decide, by decide, by decide⟩

/-- C10 amended: on a non-empty malformed id, GET and DELETE answer 500,
and PUT answers 500 when its body is unparseable or parses with non-empty
title and content; a body with an empty or missing field is instead
rejected 400 before the ObjectId is constructed. -/
theorem malformed_id_500 (id : String) (store : List Post)
    (hne : id ≠ "") (hv : isValidObjectId id = false) :
    (getHandler id store).1 = ⟨500, store⟩
    ∧ deleteHandler id store = ⟨500, store⟩
    ∧ (∀ now, putHandler id PutBody.invalid now store = ⟨500, store⟩)
    ∧ (∀ t c now, ¬ t = "" → ¬ c = "" →
        putHandler id (PutBody.fields (some t) (some c)) now store
          = ⟨500, store⟩) := by
  refine ⟨?_, ?_, ?_, ?_⟩
  · simp [getHandler, hne, hv]
  · simp [deleteHandler, hne, hv]
  · intro now
    simp [putHandler, hne, hv]
  · intro t c now ht hc
    simp [putHandler, hne, hv, isBlank, ht, hc]

/-- Witness for C10 amended at the concrete malformed id `zz`. -/
theorem malformed_id_500_witness :
    (getHandler "zz" [post1]).1 = ⟨500, [post1]⟩
    ∧ deleteHandler "zz" [post1] = ⟨500, [post1]⟩
    ∧ putHandler "zz" PutBody.invalid 0 [post1] = ⟨500, [post1]⟩
    ∧ putHandler "zz" (PutBody.fields (some "a") (some "b")) 0 [post1]
        = ⟨500, [post1]⟩ := by
  have H := malformed_id_500 "zz" [post1] (by decide) (by decide)
  exact ⟨H.1, H.2.1, H.2.2.1 0, H.2.2.2 "a" "b" 0 (by decide) (by decide)⟩

/-- C7: on an ok response `handleSaveEdit` clears the draft, re-fetches
and raises no alert; on any failed response it keeps the draft exactly as
it was, does not re-fetch, and raises the alert. -/
theorem saveEdit_outcomes (st : DraftState) (postId : String) (now : Nat)
    (store : List Post) :
    ((putHandler postId (.fields (some st.editTitle) (some st.editContent))
        now store).status = 200 →
      (handleSaveEdit st postId now store).1
        = ⟨⟨none, "", ""⟩, true, false⟩)
    ∧ ((putHandler postId (.fields (some st.editTitle)
        (some st.editContent)) now store).status ≠ 200 →
      (handleSaveEdit st postId now store).1 = ⟨st, false, true⟩) := by
  constructor
  · intro h
    simp [handleSaveEdit, h]
  · intro h
    simp [handleSaveEdit, h]

/-- Witness for C7: a succeeding save clears the draft; a save against a
store without the post fails and keeps the draft. -/
theorem saveEdit_outcomes_witness :
    (handleSaveEdit ⟨some validId, "nt", "nc"⟩ validId 7 [post1]).1
        = ⟨⟨none, "", ""⟩, true, false⟩
    ∧ (handleSaveEdit ⟨some validId, "nt", "nc"⟩ validId 7 []).1
        = ⟨⟨some validId, "nt", "nc"⟩, false, true⟩ :=
  ⟨(saveEdit_outcomes ⟨some validId, "nt", "nc"⟩ validId 7 [post1]).1
      (by decide),
   (saveEdit_outcomes ⟨some validId, "nt", "nc"⟩ validId 7 []).2
      (by decide)⟩

end Kooli
